import Mathlib

/-
Verification of the procedural test-geometry generators in ModelManager
(triangle-strip torus, triangle fan, indexed grid mesh, flattened grid mesh,
and the model catalog / dispatcher).

Numbers: the mesh generators use only field arithmetic on literals, so they
are embedded over the rationals and are fully executable.  The strip and fan
generators evaluate cosine and sine, so their positions are embedded over the
reals.  Color channels are floored to integers exactly as the source does.
-/

namespace ModelManager

/-- An RGB color triple, as in the Color collaborator: three numeric channels. -/
structure Color where
  r : ℚ
  g : ℚ
  b : ℚ
deriving DecidableEq

/-- Truncation of a rational toward zero, the rounding used by the
color-interpolation contract. -/
def trunc (q : ℚ) : ℤ :=
  if 0 ≤ q then ⌊q⌋ else ⌈q⌉

/-- Modelled from the spec: the Color collaborator with its static
interpolate2d operation is imported by ModelManager but its source is not in
the repository.  Spec section 4.1: given four corner colors at grid corners
(0,0), (1,0), (0,1), (1,1) and normalized coordinates s, t, each channel is
the bilinear blend of the four corresponding corner channels, using s along
one axis and t along the other, then truncated to an integer. -/
def interpolate2d (c00 c10 c01 c11 : Color) (s t : ℚ) : Color :=
  let blend : ℚ → ℚ → ℚ → ℚ → ℚ := fun a b c d =>
    ((trunc ((1 - s) * (1 - t) * a + s * (1 - t) * b + (1 - s) * t * c + s * t * d) : ℤ) : ℚ)
  ⟨blend c00.r c10.r c01.r c11.r, blend c00.g c10.g c01.g c11.g, blend c00.b c10.b c01.b c11.b⟩

/-- Corner color (255, 0, 0) used by both mesh generators. -/
def meshColor0 : Color := ⟨255, 0, 0⟩

/-- Corner color (0, 255, 0) used by both mesh generators. -/
def meshColor1 : Color := ⟨0, 255, 0⟩

/-- Corner color (0, 0, 255) used by both mesh generators. -/
def meshColor2 : Color := ⟨0, 0, 255⟩

/-- Corner color (255, 255, 0) used by both mesh generators. -/
def meshColor3 : Color := ⟨255, 255, 0⟩

/-- The six numbers pushed for the grid vertex of cell (i, j) in the vertex
pass shared by generateTrianglesIndex and generateTriangles: position
(10 + i * (180 / x_steps), 10 + j * (100 / y_steps), 0) followed by the
floored channels of the bilinearly interpolated color at
(s, t) = (i / x_steps, j / y_steps). -/
def gridVertexData (x_steps y_steps i j : ℕ) : List ℚ :=
  let s : ℚ := (i : ℚ) / (x_steps : ℚ)
  let t : ℚ := (j : ℚ) / (y_steps : ℚ)
  let color := interpolate2d meshColor0 meshColor1 meshColor2 meshColor3 s t
  [10 + (i : ℚ) * (180 / (x_steps : ℚ)), 10 + (j : ℚ) * (100 / (y_steps : ℚ)), 0,
    ((⌊color.r⌋ : ℤ) : ℚ), ((⌊color.g⌋ : ℤ) : ℚ), ((⌊color.b⌋ : ℤ) : ℚ)]

/-- The vertex pass of the mesh generators: rows i in [0, x_steps], columns
j in [0, y_steps], row-major, each vertex contributing its six numbers.
generateTrianglesIndex runs it with x_steps = 10, y_steps = 5 and
generateTriangles with x_steps = y_steps = 1. -/
def gridVertices (x_steps y_steps : ℕ) : List ℚ :=
  (List.range (x_steps + 1)).flatMap fun i =>
    (List.range (y_steps + 1)).flatMap fun j =>
      gridVertexData x_steps y_steps i j

/-- The six vertex indices pushed for grid cell (i, j) by the index pass of
generateTrianglesIndex, in emission order: the two triangles of the cell. -/
def cellIndices (y_steps i j : ℕ) : List ℕ :=
  [i * (y_steps + 1) + j,
   i * (y_steps + 1) + j + 1,
   (i + 1) * (y_steps + 1) + j,
   i * (y_steps + 1) + j + 1,
   (i + 1) * (y_steps + 1) + j + 1,
   (i + 1) * (y_steps + 1) + j]

/-- The index pass of generateTrianglesIndex: cells (i, j) with i in
[0, x_steps), j in [0, y_steps), six indices per cell. -/
def gridIndices (x_steps y_steps : ℕ) : List ℕ :=
  (List.range x_steps).flatMap fun i =>
    (List.range y_steps).flatMap fun j =>
      cellIndices y_steps i j

/-- The numTriangles counter of the mesh generators: starts at 0 and is
incremented by 2 once per grid cell. -/
def gridNumTriangles (x_steps y_steps : ℕ) : ℕ :=
  (List.range x_steps).foldl
    (fun acc _ => (List.range y_steps).foldl (fun a _ => a + 2) acc) 0

/-- The pushVertex helper of generateTriangles: copies the six numbers of the
vertex at the given vertex index out of the temporary vertex buffer
(the source multiplies the index by 6 and reads the six slots). -/
def pushVertex (tmpVertices : List ℚ) (index : ℕ) : List ℚ :=
  [tmpVertices.getD (6 * index) 0,
   tmpVertices.getD (6 * index + 1) 0,
   tmpVertices.getD (6 * index + 2) 0,
   tmpVertices.getD (6 * index + 3) 0,
   tmpVertices.getD (6 * index + 4) 0,
   tmpVertices.getD (6 * index + 5) 0]

/-- The flattened-mesh generator generateTriangles: first the vertex pass
into a temporary buffer, then per cell the six pushVertex copies using the
same vertex indices as the index pass of generateTrianglesIndex, in the same
order.  The source runs it with x_steps = y_steps = 1. -/
def gridFlatVertices (x_steps y_steps : ℕ) : List ℚ :=
  let tmpVertices := gridVertices x_steps y_steps
  (List.range x_steps).flatMap fun i =>
    (List.range y_steps).flatMap fun j =>
      pushVertex tmpVertices (i * (y_steps + 1) + j) ++
      pushVertex tmpVertices (i * (y_steps + 1) + j + 1) ++
      pushVertex tmpVertices ((i + 1) * (y_steps + 1) + j) ++
      pushVertex tmpVertices (i * (y_steps + 1) + j + 1) ++
      pushVertex tmpVertices ((i + 1) * (y_steps + 1) + j + 1) ++
      pushVertex tmpVertices ((i + 1) * (y_steps + 1) + j)

/-- The six numbers of the vertex with the given vertex index inside a flat
buffer (six numbers per vertex). -/
def vertexRecord (buf : List ℚ) (v : ℕ) : List ℚ :=
  (buf.drop (6 * v)).take 6

/-- Triangle t of a flattened buffer, as the multiset of its three
consecutive vertex records. -/
def triangleOfFlat (buf : List ℚ) (t : ℕ) : Multiset (List ℚ) :=
  {vertexRecord buf (3 * t), vertexRecord buf (3 * t + 1), vertexRecord buf (3 * t + 2)}

/-- Triangle t of an indexed mesh, as the multiset of the vertex records
referenced by its three consecutive indices. -/
def triangleOfIndexed (vbuf : List ℚ) (ibuf : List ℕ) (t : ℕ) : Multiset (List ℚ) :=
  {vertexRecord vbuf (ibuf.getD (3 * t) 0),
   vertexRecord vbuf (ibuf.getD (3 * t + 1) 0),
   vertexRecord vbuf (ibuf.getD (3 * t + 2) 0)}

/-- A vertex as emitted into a flat buffer: position (x, y, z) and the three
already-floored color channels. -/
structure Vertex where
  x : ℝ
  y : ℝ
  z : ℝ
  r : ℝ
  g : ℝ
  b : ℝ

/-- Default vertex used with getD. -/
def vdefault : Vertex := ⟨0, 0, 0, 0, 0, 0⟩

/-- The six numbers a vertex contributes to a flat buffer, in push order. -/
def flattenV (v : Vertex) : List ℝ := [v.x, v.y, v.z, v.r, v.g, v.b]

/-- Push a vertex at position (px, py, 0) with color c, flooring each color
channel as the source does (Math.floor on each pushed channel). -/
noncomputable def mkVertex (px py : ℝ) (c : Color) : Vertex :=
  ⟨px, py, 0, ((⌊c.r⌋ : ℤ) : ℝ), ((⌊c.g⌋ : ℤ) : ℝ), ((⌊c.b⌋ : ℤ) : ℝ)⟩

/-- The inner radius of the strip torus. -/
def innerRadius : ℝ := 40

/-- The outer radius of the strip torus. -/
def outerRadius : ℝ := 80

/-- The segment count of the strip torus. -/
def numSegments : ℕ := 18

/-- The three-color palette of generateTriangleStrip. -/
def stripColors : List Color := [⟨255, 0, 0⟩, ⟨0, 255, 0⟩, ⟨0, 0, 255⟩]

/-- Palette lookup colors[k] of generateTriangleStrip. -/
def stripColor (k : ℕ) : Color := stripColors.getD k ⟨0, 0, 0⟩

/-- One iteration of the generateTriangleStrip loop, for segment i: on the
first segment only, the two current-angle points (inner then outer) seed the
strip; every segment then pushes the next-angle inner and outer points. -/
noncomputable def stripBody (x y angleStep : ℝ) (i : ℕ) : List Vertex :=
  let currAngle : ℝ := (i : ℝ) * angleStep
  let nextAngle : ℝ := ((i : ℝ) + 1) * angleStep
  let x0 := x + innerRadius * Real.cos currAngle
  let y0 := y + innerRadius * Real.sin currAngle
  let x1 := x + outerRadius * Real.cos currAngle
  let y1 := y + outerRadius * Real.sin currAngle
  let x2 := x + innerRadius * Real.cos nextAngle
  let y2 := y + innerRadius * Real.sin nextAngle
  let x3 := x + outerRadius * Real.cos nextAngle
  let y3 := y + outerRadius * Real.sin nextAngle
  (if i = 0 then
    [mkVertex x0 y0 (stripColor (i % 3)), mkVertex x1 y1 (stripColor ((i + 2) % 3))]
  else []) ++
  [mkVertex x2 y2 (stripColor ((i + 1) % 3)), mkVertex x3 y3 (stripColor (i % 3))]

/-- generateTriangleStrip, at vertex granularity: center (width/2, height/2),
angle step 2 pi / numSegments, loop over segments 0 .. numSegments - 1. -/
noncomputable def generateTriangleStripV (width height : ℝ) : List Vertex :=
  (List.range numSegments).flatMap
    (stripBody (width / 2) (height / 2) (2 * Real.pi / (numSegments : ℝ)))

/-- generateTriangleStrip: the returned flat numeric buffer. -/
noncomputable def generateTriangleStrip (width height : ℝ) : List ℝ :=
  (generateTriangleStripV width height).flatMap flattenV

/-- The strip vertex used as the concrete instance for claim C9. -/
noncomputable def stripWitnessVertex : Vertex :=
  (generateTriangleStripV 200 200).getD 0 vdefault

/-- The inner ring point of the strip at angle k * angleStep, with the
palette color the strip assigns to it. -/
noncomputable def stripInner (x y angleStep : ℝ) (k : ℕ) : Vertex :=
  mkVertex (x + innerRadius * Real.cos ((k : ℝ) * angleStep))
           (y + innerRadius * Real.sin ((k : ℝ) * angleStep))
           (stripColor (k % 3))

/-- The outer ring point of the strip at angle k * angleStep, with the
palette color the strip assigns to it. -/
noncomputable def stripOuter (x y angleStep : ℝ) (k : ℕ) : Vertex :=
  mkVertex (x + outerRadius * Real.cos ((k : ℝ) * angleStep))
           (y + outerRadius * Real.sin ((k : ℝ) * angleStep))
           (stripColor ((k + 2) % 3))

/-- The pair of vertices (inner ring point then outer ring point) at angle
k * angleStep; the strip buffer is exactly these pairs for
k = 0 .. numSegments. -/
noncomputable def stripPair (x y angleStep : ℝ) (k : ℕ) : List Vertex :=
  [stripInner x y angleStep k, stripOuter x y angleStep k]

/-- The rim triangle count of generateTriangleFan. -/
def numTriangles : ℕ := 5

/-- Fan palette color0 (the apex color). -/
def fanColor0 : Color := ⟨255, 0, 0⟩

/-- Fan palette color1 (rim color for odd i). -/
def fanColor1 : Color := ⟨0, 255, 0⟩

/-- Fan palette color2 (rim color for even i). -/
def fanColor2 : Color := ⟨0, 0, 255⟩

/-- generateTriangleFan, at vertex granularity: apex (10, height - 10) with
color0 first, then for i in [0, numTriangles] the rim point at angle
-(i / numTriangles) * pi / 2 and radius 150, colored color2 for even i and
color1 for odd i. -/
noncomputable def generateTriangleFanV (height : ℝ) : List Vertex :=
  let x : ℝ := 10
  let y : ℝ := height - 10
  let r : ℝ := 150
  mkVertex x y fanColor0 ::
    (List.range (numTriangles + 1)).map fun (i : ℕ) =>
      let s : ℝ := (i : ℝ) / (numTriangles : ℝ)
      let angle : ℝ := -s * Real.pi / 2
      mkVertex (x + r * Real.cos angle) (y + r * Real.sin angle)
        (if i % 2 = 0 then fanColor2 else fanColor1)

/-- The flat buffer generateTriangleFan hands to the rasterizer. -/
noncomputable def generateTriangleFan (height : ℝ) : List ℝ :=
  (generateTriangleFanV height).flatMap flattenV

/-- The frame-buffer collaborator, at the interface the generators use:
its width and height. -/
structure FrameBuffer where
  width : ℝ
  height : ℝ

/-- The four model identifiers registered in the constructor, in
registration order. -/
def registeredModels : List String :=
  ["meshIndex", "meshTriangles", "triangleFan", "triangleStrip"]

/-- getModels: the keys of the registry. -/
def getModels : List String := registeredModels

/-- getModel: only the strip model is wired to the numeric-query path;
every other identifier falls to the default branch and yields []. -/
noncomputable def getModel (model : String) (width height : ℝ) : List ℝ :=
  if model = "triangleStrip" then generateTriangleStrip width height else []

/-- One invocation of a fill operation of the GeometricProcessor rasterizer,
with the buffers and options the dispatcher passes to it. -/
inductive FillOp where
  | fillTriangleStrip : List ℝ → Bool → Color → FillOp
  | fillTriangleFan : List ℝ → Bool → Color → FillOp
  | fillTrianglesIndex : List ℚ → List ℕ → ℕ → Bool → Color → FillOp
  | fillTriangles : List ℚ → ℕ → Bool → Color → FillOp

/-- drawModel, modelled by the sequence of rasterizer fill operations it
invokes: one fill for each recognized identifier, none for the default
branch. -/
noncomputable def drawModelOps (model : String) (frame : FrameBuffer)
    (drawBorder : Bool) (borderColor : Color) : List FillOp :=
  if model = "triangleStrip" then
    [FillOp.fillTriangleStrip (generateTriangleStrip frame.width frame.height) drawBorder borderColor]
  else if model = "triangleFan" then
    [FillOp.fillTriangleFan (generateTriangleFan frame.height) drawBorder borderColor]
  else if model = "meshIndex" then
    [FillOp.fillTrianglesIndex (gridVertices 10 5) (gridIndices 10 5) (gridNumTriangles 10 5)
      drawBorder borderColor]
  else if model = "meshTriangles" then
    [FillOp.fillTriangles (gridFlatVertices 1 1) (gridNumTriangles 1 1) drawBorder borderColor]
  else []

/-- Apply a sequence of fill operations to a surface, for an arbitrary
interpretation of what one fill does to the surface. -/
def runFills {S : Type} (interp : FillOp → S → S) (ops : List FillOp) (s : S) : S :=
  ops.foldl (fun st op => interp op st) s

/-- An identifier that is not a registered model, used as the concrete
instance for claim C7. -/
def badModel : String := "nonesuch"

/-- Length of a flatMap over an initial range when every block has the same
length. -/
theorem flatMap_range_length {β : Type} (f : ℕ → List β) (c : ℕ)
    (hf : ∀ k, (f k).length = c) (n : ℕ) :
    ((List.range n).flatMap f).length = c * n := by
  induction n with
  | zero => simp
  | succ m ih =>
    rw [List.range_succ]
    simp only [List.flatMap_append, List.flatMap_cons, List.flatMap_nil,
      List.append_nil, List.length_append, ih, hf]
    ring

/-- A within-block slice of a flatMap over an initial range, when every
block has the same length c: the slice starting at offset r inside block k
is a slice of block k. -/
theorem flatMap_range_slice {β : Type} (f : ℕ → List β) (c : ℕ)
    (hf : ∀ k, (f k).length = c) (n k r t : ℕ) (hk : k < n) (hrt : r + t ≤ c) :
    (((List.range n).flatMap f).drop (c * k + r)).take t = ((f k).drop r).take t := by
  induction n with
  | zero => omega
  | succ m ih =>
    rw [List.range_succ]
    simp only [List.flatMap_append, List.flatMap_cons, List.flatMap_nil, List.append_nil]
    have hlen : ((List.range m).flatMap f).length = c * m := flatMap_range_length f c hf m
    rcases Nat.lt_or_ge k m with h | h
    · have hck : c * (k + 1) = c * k + c := by ring
      have hcm : c * (k + 1) ≤ c * m := Nat.mul_le_mul_left c h
      rw [List.drop_append_of_le_length (by rw [hlen]; omega)]
      rw [List.take_append_of_le_length (by rw [List.length_drop, hlen]; omega)]
      exact ih h
    · have hk' : k = m := by omega
      subst hk'
      rw [show c * k + r = ((List.range k).flatMap f).length + r by rw [hlen]]
      rw [List.drop_append]

/-- getD of a flatMap over an initial range of two-element blocks: even
offsets hit the first element of a block, odd offsets the second. -/
theorem flatMap_range_pairs_getD {β : Type} (p q : ℕ → β) (d : β) (m n : ℕ)
    (hn : n < 2 * m) :
    ((List.range m).flatMap fun k => [p k, q k]).getD n d =
      if n % 2 = 0 then p (n / 2) else q (n / 2) := by
  induction m with
  | zero => omega
  | succ m ih =>
    rw [List.range_succ]
    simp only [List.flatMap_append, List.flatMap_cons, List.flatMap_nil, List.append_nil]
    have hlen : ((List.range m).flatMap fun k => [p k, q k]).length = 2 * m :=
      flatMap_range_length (fun k => [p k, q k]) 2 (fun _ => rfl) m
    rcases Nat.lt_or_ge n (2 * m) with h | h
    · rw [List.getD_append _ _ _ _ (by rw [hlen]; exact h)]
      exact ih h
    · rw [List.getD_append_right _ _ _ _ (by rw [hlen]; exact h), hlen]
      have h2 : n = 2 * m ∨ n = 2 * m + 1 := by omega
      rcases h2 with h2 | h2 <;> subst h2
      · have hd : 2 * m - 2 * m = 0 := by omega
        have hdiv : 2 * m / 2 = m := by omega
        have hmod : 2 * m % 2 = 0 := by omega
        rw [hd, hdiv, hmod]
        simp
      · have hd : 2 * m + 1 - 2 * m = 1 := by omega
        have hdiv : (2 * m + 1) / 2 = m := by omega
        have hmod : (2 * m + 1) % 2 = 1 := by omega
        rw [hd, hdiv, hmod]
        simp

/-- Folding a constant increment over a list adds the increment once per
element. -/
theorem foldl_add_const {β : Type} (c : ℕ) (l : List β) (s : ℕ) :
    l.foldl (fun a _ => a + c) s = s + c * l.length := by
  induction l generalizing s with
  | nil => simp
  | cons b l ih => simp [ih]; ring

/-- The numTriangles counter of the mesh generators counts two triangles
per grid cell. -/
theorem gridNumTriangles_eq (x_steps y_steps : ℕ) :
    gridNumTriangles x_steps y_steps = 2 * (x_steps * y_steps) := by
  induction x_steps with
  | zero => simp [gridNumTriangles]
  | succ m ih =>
    unfold gridNumTriangles at ih ⊢
    rw [List.range_succ, List.foldl_append, ih]
    simp [foldl_add_const]
    ring

/-- Flattening a vertex list into a numeric buffer yields six numbers per
vertex. -/
theorem flattenV_length (l : List Vertex) : (l.flatMap flattenV).length = 6 * l.length := by
  induction l with
  | nil => simp
  | cons v l ih => simp [ih, flattenV]; ring

/-- The first loop iteration of the strip emits the angle-0 pair followed by
the angle-step pair. -/
theorem stripBody_zero (x y s : ℝ) :
    stripBody x y s 0 = stripPair x y s 0 ++ stripPair x y s 1 := by
  simp only [stripBody, stripPair, stripInner, stripOuter, if_pos rfl]
  push_cast
  norm_num

/-- Every later loop iteration of the strip emits exactly the pair at the
next angle. -/
theorem stripBody_succ (x y s : ℝ) (i : ℕ) (hi : i ≠ 0) :
    stripBody x y s i = stripPair x y s (i + 1) := by
  have hmod : (i + 1 + 2) % 3 = i % 3 := by omega
  simp only [stripBody, stripPair, stripInner, stripOuter, if_neg hi, List.nil_append,
    hmod]
  push_cast
  norm_num

/-- The strip loop over the first n segments (n at least 1) emits exactly
the inner/outer pairs at angles 0 .. n times the angle step. -/
theorem stripLoop_eq_pairs (x y s : ℝ) (n : ℕ) (hn : 1 ≤ n) :
    (List.range n).flatMap (stripBody x y s) =
      (List.range (n + 1)).flatMap (stripPair x y s) := by
  induction n with
  | zero => omega
  | succ m ih =>
    rcases Nat.eq_zero_or_pos m with h0 | hpos
    · subst h0
      rw [show (1:ℕ) + 1 = 2 by omega]
      rw [show List.range 1 = [0] by rfl, show List.range 2 = [0, 1] by rfl]
      simp [stripBody_zero]
    · rw [List.range_succ, List.flatMap_append, ih hpos,
        List.range_succ (n := m + 1), List.flatMap_append]
      simp [stripBody_succ x y s m (by omega)]

/-- generateTriangleStrip emits exactly the inner/outer pairs at angles
0 .. numSegments times the angle step. -/
theorem stripV_eq_pairs (width height : ℝ) :
    generateTriangleStripV width height =
      (List.range (numSegments + 1)).flatMap
        (stripPair (width / 2) (height / 2) (2 * Real.pi / (numSegments : ℝ))) := by
  unfold generateTriangleStripV
  exact stripLoop_eq_pairs _ _ _ numSegments (by norm_num [numSegments])

/-- The strip vertex list has 2 * (numSegments + 1) vertices. -/
theorem stripV_length (width height : ℝ) :
    (generateTriangleStripV width height).length = 2 * (numSegments + 1) := by
  rw [stripV_eq_pairs]
  exact flatMap_range_length
    (stripPair (width / 2) (height / 2) (2 * Real.pi / (numSegments : ℝ))) 2
    (fun _ => rfl) _

/-- The strip vertex at buffer position n: inner ring point of pair n / 2
for even n, outer ring point for odd n. -/
theorem stripV_getD (width height : ℝ) (n : ℕ) (hn : n < 2 * (numSegments + 1)) :
    (generateTriangleStripV width height).getD n vdefault =
      if n % 2 = 0 then
        stripInner (width / 2) (height / 2) (2 * Real.pi / (numSegments : ℝ)) (n / 2)
      else
        stripOuter (width / 2) (height / 2) (2 * Real.pi / (numSegments : ℝ)) (n / 2) := by
  rw [stripV_eq_pairs]
  have hfun : stripPair (width / 2) (height / 2) (2 * Real.pi / (numSegments : ℝ)) =
      fun k => [stripInner (width / 2) (height / 2) (2 * Real.pi / (numSegments : ℝ)) k,
                stripOuter (width / 2) (height / 2) (2 * Real.pi / (numSegments : ℝ)) k] := rfl
  rw [hfun]
  exact flatMap_range_pairs_getD _ _ vdefault (numSegments + 1) n hn

/-- A point on a circle of radius r around (cx, cy) is at distance r from
the center. -/
theorem ringPoint_dist (cx cy r θ : ℝ) (hr : 0 ≤ r) :
    Real.sqrt ((cx + r * Real.cos θ - cx) ^ 2 + (cy + r * Real.sin θ - cy) ^ 2) = r := by
  have h := Real.sin_sq_add_cos_sq θ
  have h1 : (cx + r * Real.cos θ - cx) ^ 2 + (cy + r * Real.sin θ - cy) ^ 2 = r ^ 2 := by
    have e1 : cx + r * Real.cos θ - cx = r * Real.cos θ := by ring
    have e2 : cy + r * Real.sin θ - cy = r * Real.sin θ := by ring
    rw [e1, e2]
    calc (r * Real.cos θ) ^ 2 + (r * Real.sin θ) ^ 2
        = r ^ 2 * (Real.sin θ ^ 2 + Real.cos θ ^ 2) := by ring
      _ = r ^ 2 := by rw [h, mul_one]
  rw [h1, Real.sqrt_sq hr]

/-- The first strip vertex of the 200 x 200 buffer has position
(140, 100, 0). -/
theorem strip200_vertex0 :
    ((generateTriangleStripV 200 200).getD 0 vdefault).x = 140 ∧
    ((generateTriangleStripV 200 200).getD 0 vdefault).y = 100 ∧
    ((generateTriangleStripV 200 200).getD 0 vdefault).z = 0 := by
  rw [stripV_getD 200 200 0 (by norm_num [numSegments])]
  norm_num [stripInner, mkVertex, innerRadius]

/-- Claim C1 (amended): for every width and height the triangle-strip
generator emits 2 N + 2 vertices for N segments (not N + 2): the seed pair
plus one pair per segment; with the defaults (numSegments = 18) that is 38
vertices, a flat buffer of 228 numbers. -/
theorem C1_theorem (width height : ℝ) :
    (generateTriangleStripV width height).length = 2 * numSegments + 2 ∧
    (generateTriangleStrip width height).length = 6 * (2 * numSegments + 2) := by
  have h1 : (generateTriangleStripV width height).length = 2 * numSegments + 2 := by
    rw [stripV_length]; ring
  refine ⟨h1, ?_⟩
  unfold generateTriangleStrip
  rw [flattenV_length, h1]

/-- Claim C1 counterexample: generateTriangleStrip(200, 200) does not
return a flat buffer of 120 numbers (it returns 228). -/
theorem C1_counterexample : (generateTriangleStrip 200 200).length ≠ 120 := by
  unfold generateTriangleStrip
  rw [flattenV_length, stripV_length]
  norm_num [numSegments]

/-- Claim C4 (amended): generateTriangleStrip(200, 200) with the default
parameters returns a buffer whose first vertex has position (140, 100, 0)
(not (240, 100, 0)), and whose first two vertices are the segment-0
current-angle inner and outer ring points, in that order. -/
theorem C4_theorem :
    (generateTriangleStripV 200 200).getD 0 vdefault =
      stripInner 100 100 (2 * Real.pi / (numSegments : ℝ)) 0 ∧
    (generateTriangleStripV 200 200).getD 1 vdefault =
      stripOuter 100 100 (2 * Real.pi / (numSegments : ℝ)) 0 ∧
    ((generateTriangleStripV 200 200).getD 0 vdefault).x = 140 ∧
    ((generateTriangleStripV 200 200).getD 0 vdefault).y = 100 ∧
    ((generateTriangleStripV 200 200).getD 0 vdefault).z = 0 := by
  refine ⟨?_, ?_, strip200_vertex0.1, strip200_vertex0.2.1, strip200_vertex0.2.2⟩
  · rw [stripV_getD 200 200 0 (by norm_num [numSegments])]
    norm_num
  · rw [stripV_getD 200 200 1 (by norm_num [numSegments])]
    norm_num

/-- Claim C4 counterexample: the first vertex of generateTriangleStrip(200,
200) has x-coordinate 140, not 240 as the claim states. -/
theorem C4_counterexample :
    ((generateTriangleStripV 200 200).getD 0 vdefault).x = 140 ∧ (140 : ℝ) ≠ 240 :=
  ⟨strip200_vertex0.1, by norm_num⟩

/-- Claim C9: every vertex emitted by the triangle-strip generator lies
within [center - outerRadius, center + outerRadius] on both axes. -/
theorem C9_theorem (width height : ℝ) (v : Vertex)
    (hv : v ∈ generateTriangleStripV width height) :
    width / 2 - outerRadius ≤ v.x ∧ v.x ≤ width / 2 + outerRadius ∧
    height / 2 - outerRadius ≤ v.y ∧ v.y ≤ height / 2 + outerRadius := by
  rw [stripV_eq_pairs, List.mem_flatMap] at hv
  obtain ⟨k, _, hv⟩ := hv
  have hcos1 := Real.cos_le_one ((k : ℝ) * (2 * Real.pi / (numSegments : ℝ)))
  have hcos2 := Real.neg_one_le_cos ((k : ℝ) * (2 * Real.pi / (numSegments : ℝ)))
  have hsin1 := Real.sin_le_one ((k : ℝ) * (2 * Real.pi / (numSegments : ℝ)))
  have hsin2 := Real.neg_one_le_sin ((k : ℝ) * (2 * Real.pi / (numSegments : ℝ)))
  simp only [stripPair, List.mem_cons, List.not_mem_nil, or_false] at hv
  rcases hv with h | h <;> subst h <;>
    simp only [stripInner, stripOuter, mkVertex, innerRadius, outerRadius] <;>
    refine ⟨by linarith, by linarith, by linarith, by linarith⟩

/-- Witness for claim C9, at the first vertex of the 200 x 200 strip. -/
theorem C9_witness :
    stripWitnessVertex ∈ generateTriangleStripV 200 200 ∧
    (200 / 2 - outerRadius ≤ stripWitnessVertex.x ∧
      stripWitnessVertex.x ≤ 200 / 2 + outerRadius ∧
      200 / 2 - outerRadius ≤ stripWitnessVertex.y ∧
      stripWitnessVertex.y ≤ 200 / 2 + outerRadius) := by
  have hlt : 0 < (generateTriangleStripV 200 200).length := by
    rw [stripV_length]; norm_num
  have hm : stripWitnessVertex ∈ generateTriangleStripV 200 200 := by
    unfold stripWitnessVertex
    rw [List.getD_eq_getElem _ _ hlt]
    exact List.getElem_mem hlt
  exact ⟨hm, C9_theorem 200 200 stripWitnessVertex hm⟩

/-- Claim C10: the strip vertex sequence strictly alternates ring radii:
vertices at even buffer positions are at distance innerRadius from the
center and vertices at odd positions at distance outerRadius. -/
theorem C10_theorem (width height : ℝ) (n : ℕ)
    (hn : n < (generateTriangleStripV width height).length) :
    (n % 2 = 0 → Real.sqrt
        ((((generateTriangleStripV width height).getD n vdefault).x - width / 2) ^ 2 +
         (((generateTriangleStripV width height).getD n vdefault).y - height / 2) ^ 2) =
        innerRadius) ∧
    (n % 2 = 1 → Real.sqrt
        ((((generateTriangleStripV width height).getD n vdefault).x - width / 2) ^ 2 +
         (((generateTriangleStripV width height).getD n vdefault).y - height / 2) ^ 2) =
        outerRadius) := by
  rw [stripV_length] at hn
  rw [stripV_getD width height n hn]
  constructor
  · intro he
    rw [if_pos he]
    simp only [stripInner, mkVertex]
    exact ringPoint_dist _ _ _ _ (by norm_num [innerRadius])
  · intro ho
    rw [if_neg (by omega)]
    simp only [stripOuter, mkVertex]
    exact ringPoint_dist _ _ _ _ (by norm_num [outerRadius])

/-- Witness for claim C10, at position 0 of the 200 x 200 strip. -/
theorem C10_witness :
    0 < (generateTriangleStripV 200 200).length ∧
    ((0 % 2 = 0 → Real.sqrt
        ((((generateTriangleStripV 200 200).getD 0 vdefault).x - 200 / 2) ^ 2 +
         (((generateTriangleStripV 200 200).getD 0 vdefault).y - 200 / 2) ^ 2) =
        innerRadius) ∧
     (0 % 2 = 1 → Real.sqrt
        ((((generateTriangleStripV 200 200).getD 0 vdefault).x - 200 / 2) ^ 2 +
         (((generateTriangleStripV 200 200).getD 0 vdefault).y - 200 / 2) ^ 2) =
        outerRadius)) := by
  have hlt : 0 < (generateTriangleStripV 200 200).length := by
    rw [stripV_length]; norm_num
  exact ⟨hlt, C10_theorem 200 200 0 hlt⟩

/-- Any grid corner index a * (Y + 1) + b with a in [0, X] and b in [0, Y]
is a valid vertex index of the (X+1) x (Y+1) vertex grid. -/
theorem gridCell_lt (X Y a b : ℕ) (ha : a ≤ X) (hb : b ≤ Y) :
    a * (Y + 1) + b < (X + 1) * (Y + 1) := by
  have h1 : a * (Y + 1) ≤ X * (Y + 1) := Nat.mul_le_mul_right _ ha
  have h2 : (X + 1) * (Y + 1) = X * (Y + 1) + Y + 1 := by ring
  omega

/-- The vertex pass emits 6 * (X + 1) * (Y + 1) numbers. -/
theorem gridVertices_length (X Y : ℕ) :
    (gridVertices X Y).length = 6 * ((X + 1) * (Y + 1)) := by
  unfold gridVertices
  have h1 : ∀ i, ((List.range (Y + 1)).flatMap fun j => gridVertexData X Y i j).length =
      6 * (Y + 1) :=
    fun i => flatMap_range_length (fun j => gridVertexData X Y i j) 6 (fun _ => rfl) (Y + 1)
  rw [flatMap_range_length
    (fun i => (List.range (Y + 1)).flatMap fun j => gridVertexData X Y i j)
    (6 * (Y + 1)) h1 (X + 1)]
  ring

/-- The index pass emits 6 * X * Y indices. -/
theorem gridIndices_length (X Y : ℕ) :
    (gridIndices X Y).length = 6 * (X * Y) := by
  unfold gridIndices
  have h1 : ∀ i, ((List.range Y).flatMap fun j => cellIndices Y i j).length = 6 * Y :=
    fun i => flatMap_range_length (fun j => cellIndices Y i j) 6 (fun _ => rfl) Y
  rw [flatMap_range_length
    (fun i => (List.range Y).flatMap fun j => cellIndices Y i j) (6 * Y) h1 X]
  ring

/-- Claim C3: the indexed-mesh generator with x_steps = X and y_steps = Y
produces (X+1)(Y+1) vertices (6 numbers each), 6 X Y indices all below
(X+1)(Y+1), and reports 2 X Y triangles; for the fixed X = 10, Y = 5 that
is 66 vertices, 300 indices, 100 triangles. -/
theorem C3_theorem (X Y : ℕ) :
    (gridVertices X Y).length = 6 * ((X + 1) * (Y + 1)) ∧
    (gridIndices X Y).length = 6 * (X * Y) ∧
    (∀ e ∈ gridIndices X Y, e < (X + 1) * (Y + 1)) ∧
    gridNumTriangles X Y = 2 * (X * Y) ∧
    (gridVertices 10 5).length = 6 * 66 ∧
    (gridIndices 10 5).length = 300 ∧
    gridNumTriangles 10 5 = 100 := by
  refine ⟨gridVertices_length X Y, gridIndices_length X Y, ?_, gridNumTriangles_eq X Y,
    by rw [gridVertices_length 10 5], by rw [gridIndices_length 10 5],
    by rw [gridNumTriangles_eq 10 5]⟩
  intro e he
  unfold gridIndices at he
  rw [List.mem_flatMap] at he
  obtain ⟨i, hi, he⟩ := he
  rw [List.mem_flatMap] at he
  obtain ⟨j, hj, he⟩ := he
  rw [List.mem_range] at hi hj
  simp only [cellIndices, List.mem_cons, List.not_mem_nil, or_false] at he
  rcases he with h | h | h | h | h | h <;> subst h
  · exact gridCell_lt X Y i j (by omega) (by omega)
  · exact gridCell_lt X Y i (j + 1) (by omega) (by omega)
  · exact gridCell_lt X Y (i + 1) j (by omega) (by omega)
  · exact gridCell_lt X Y i (j + 1) (by omega) (by omega)
  · exact gridCell_lt X Y (i + 1) (j + 1) (by omega) (by omega)
  · exact gridCell_lt X Y (i + 1) j (by omega) (by omega)

/-- Witness for claim C3: index 0 is in the 10 x 5 index buffer and is
below the vertex count. -/
theorem C3_witness :
    (0 ∈ gridIndices 10 5) ∧ 0 < (10 + 1) * (5 + 1) :=
  ⟨by decide, (C3_theorem 10 5).2.2.1 0 (by decide)⟩

/-- Claim C5: the vertex of grid cell (i, j) sits at vertex index
i * (y_steps + 1) + j of the vertex buffer, and for every cell the index
pass emits exactly the two triangles (i,j),(i,j+1),(i+1,j) and
(i,j+1),(i+1,j+1),(i+1,j), in that order, vertices in that order. -/
theorem C5_theorem (x_steps y_steps i j : ℕ) :
    (i ≤ x_steps → j ≤ y_steps →
      ((gridVertices x_steps y_steps).drop (6 * (i * (y_steps + 1) + j))).take 6 =
        gridVertexData x_steps y_steps i j) ∧
    (i < x_steps → j < y_steps →
      ((gridIndices x_steps y_steps).drop (6 * (i * y_steps + j))).take 6 =
        [i * (y_steps + 1) + j,
         i * (y_steps + 1) + j + 1,
         (i + 1) * (y_steps + 1) + j,
         i * (y_steps + 1) + j + 1,
         (i + 1) * (y_steps + 1) + j + 1,
         (i + 1) * (y_steps + 1) + j]) := by
  constructor
  · intro hi hj
    unfold gridVertices
    have h1 : ∀ a, ((List.range (y_steps + 1)).flatMap
        fun b => gridVertexData x_steps y_steps a b).length = 6 * (y_steps + 1) :=
      fun a => flatMap_range_length (fun b => gridVertexData x_steps y_steps a b) 6
        (fun _ => rfl) (y_steps + 1)
    calc (((List.range (x_steps + 1)).flatMap fun a =>
            (List.range (y_steps + 1)).flatMap fun b =>
              gridVertexData x_steps y_steps a b).drop
            (6 * (i * (y_steps + 1) + j))).take 6
        = (((List.range (y_steps + 1)).flatMap fun b =>
            gridVertexData x_steps y_steps i b).drop (6 * j)).take 6 := by
          rw [show 6 * (i * (y_steps + 1) + j) = 6 * (y_steps + 1) * i + 6 * j by ring]
          exact flatMap_range_slice _ (6 * (y_steps + 1)) h1 (x_steps + 1) i (6 * j) 6
            (by omega) (by omega)
      _ = gridVertexData x_steps y_steps i j := by
          have h2 := flatMap_range_slice (fun b => gridVertexData x_steps y_steps i b) 6
            (fun _ => rfl) (y_steps + 1) j 0 6 (by omega) (by omega)
          rw [show 6 * j = 6 * j + 0 by omega] at h2 ⊢
          rw [h2, List.drop_zero,
            show (6 : ℕ) = (gridVertexData x_steps y_steps i j).length from rfl,
            List.take_length]
  · intro hi hj
    unfold gridIndices
    have h1 : ∀ a, ((List.range y_steps).flatMap
        fun b => cellIndices y_steps a b).length = 6 * y_steps :=
      fun a => flatMap_range_length (fun b => cellIndices y_steps a b) 6 (fun _ => rfl) y_steps
    calc (((List.range x_steps).flatMap fun a =>
            (List.range y_steps).flatMap fun b =>
              cellIndices y_steps a b).drop (6 * (i * y_steps + j))).take 6
        = (((List.range y_steps).flatMap fun b =>
            cellIndices y_steps i b).drop (6 * j)).take 6 := by
          rw [show 6 * (i * y_steps + j) = 6 * y_steps * i + 6 * j by ring]
          exact flatMap_range_slice _ (6 * y_steps) h1 x_steps i (6 * j) 6 hi (by omega)
      _ = cellIndices y_steps i j := by
          have h2 := flatMap_range_slice (fun b => cellIndices y_steps i b) 6
            (fun _ => rfl) y_steps j 0 6 hj (by omega)
          rw [show 6 * j = 6 * j + 0 by omega] at h2 ⊢
          rw [h2, List.drop_zero,
            show (6 : ℕ) = (cellIndices y_steps i j).length from rfl,
            List.take_length]

/-- Witness for claim C5, at grid cell (2, 3) of the 10 x 5 grid. -/
theorem C5_witness :
    ((2 ≤ 10 ∧ 3 ≤ 5) ∧ (2 < 10 ∧ 3 < 5)) ∧
    ((((gridVertices 10 5).drop (6 * (2 * (5 + 1) + 3))).take 6 =
        gridVertexData 10 5 2 3) ∧
     (((gridIndices 10 5).drop (6 * (2 * 5 + 3))).take 6 =
        [2 * (5 + 1) + 3,
         2 * (5 + 1) + 3 + 1,
         (2 + 1) * (5 + 1) + 3,
         2 * (5 + 1) + 3 + 1,
         (2 + 1) * (5 + 1) + 3 + 1,
         (2 + 1) * (5 + 1) + 3])) :=
  ⟨⟨⟨by decide, by decide⟩, ⟨by decide, by decide⟩⟩,
   ⟨(C5_theorem 10 5 2 3).1 (by decide) (by decide),
    (C5_theorem 10 5 2 3).2 (by decide) (by decide)⟩⟩

/-- A six-element slice of a list, written with getD lookups. -/
theorem drop_take6 (l : List ℚ) (k : ℕ) (h : k + 6 ≤ l.length) :
    (l.drop k).take 6 = [l.getD k 0, l.getD (k + 1) 0, l.getD (k + 2) 0,
      l.getD (k + 3) 0, l.getD (k + 4) 0, l.getD (k + 5) 0] := by
  have h0 : k < l.length := by omega
  have h1 : k + 1 < l.length := by omega
  have h2 : k + 2 < l.length := by omega
  have h3 : k + 3 < l.length := by omega
  have h4 : k + 4 < l.length := by omega
  have h5 : k + 5 < l.length := by omega
  rw [List.drop_eq_getElem_cons h0, List.drop_eq_getElem_cons h1]
  rw [show k + 1 + 1 = k + 2 from rfl]
  rw [List.drop_eq_getElem_cons h2]
  rw [show k + 2 + 1 = k + 3 from rfl]
  rw [List.drop_eq_getElem_cons h3]
  rw [show k + 3 + 1 = k + 4 from rfl]
  rw [List.drop_eq_getElem_cons h4]
  rw [show k + 4 + 1 = k + 5 from rfl]
  rw [List.drop_eq_getElem_cons h5]
  rw [List.getD_eq_getElem l 0 h0, List.getD_eq_getElem l 0 h1, List.getD_eq_getElem l 0 h2,
    List.getD_eq_getElem l 0 h3, List.getD_eq_getElem l 0 h4, List.getD_eq_getElem l 0 h5]
  rfl

/-- On in-range vertex indices, the pushVertex copy is exactly the
six-number record of that vertex. -/
theorem vertexRecord_eq_pushVertex (tmp : List ℚ) (v : ℕ) (h : 6 * v + 6 ≤ tmp.length) :
    vertexRecord tmp v = pushVertex tmp v := by
  unfold vertexRecord pushVertex
  exact drop_take6 tmp (6 * v) h

/-- The block of a flatMap of constant-length blocks addressed by block
index k is the block built from element k of the underlying list. -/
theorem flatMap_blocks_slice {α β : Type} (f : α → List β) (c : ℕ)
    (hf : ∀ a, (f a).length = c) (l : List α) (k : ℕ) (hk : k < l.length) (d : α) :
    ((l.flatMap f).drop (c * k)).take c = f (l.getD k d) := by
  induction l generalizing k with
  | nil => simp at hk
  | cons a l ih =>
    cases k with
    | zero =>
      rw [List.flatMap_cons, Nat.mul_zero, List.drop_zero, ← hf a, List.take_left]
      rfl
    | succ k =>
      rw [List.flatMap_cons,
        show c * (k + 1) = (f a).length + c * k by rw [hf a]; ring,
        List.drop_append]
      rw [show (a :: l).getD (k + 1) d = l.getD k d from rfl]
      exact ih k (by simpa using hk)

/-- The flattened 1 x 1 mesh is the pushVertex expansion of the literal
index sequence 0, 1, 2, 1, 3, 2 over the shared vertex pass. -/
theorem gridFlat11 : gridFlatVertices 1 1 =
    ([0, 1, 2, 1, 3, 2] : List ℕ).flatMap (pushVertex (gridVertices 1 1)) := by
  unfold gridFlatVertices
  simp only [show List.range 1 = [0] from rfl, List.flatMap_cons, List.flatMap_nil,
    List.append_nil, List.append_assoc]

/-- The index buffer of the 1 x 1 grid. -/
theorem gridIdx11 : gridIndices 1 1 = [0, 1, 2, 1, 3, 2] := by decide

/-- Claim C2: for each of the triangles of the flattened-mesh generator
(x_steps = y_steps = 1), the multiset of its three 6-number vertex records
equals the multiset of the three records referenced by the corresponding
triangle of the indexed-mesh generator run with the same grid parameters. -/
theorem C2_theorem (t : ℕ) (ht : t < gridNumTriangles 1 1) :
    triangleOfFlat (gridFlatVertices 1 1) t =
      triangleOfIndexed (gridVertices 1 1) (gridIndices 1 1) t := by
  have htmp : (gridVertices 1 1).length = 24 := by rw [gridVertices_length]
  have hrec : ∀ v : ℕ, v ≤ 3 →
      vertexRecord (gridVertices 1 1) v = pushVertex (gridVertices 1 1) v := by
    intro v hv
    exact vertexRecord_eq_pushVertex (gridVertices 1 1) v (by omega)
  have hflatrec : ∀ v : ℕ, v < 6 → vertexRecord (gridFlatVertices 1 1) v =
      pushVertex (gridVertices 1 1) (([0, 1, 2, 1, 3, 2] : List ℕ).getD v 0) := by
    intro v hv
    unfold vertexRecord
    rw [gridFlat11]
    exact flatMap_blocks_slice (pushVertex (gridVertices 1 1)) 6 (fun _ => rfl)
      [0, 1, 2, 1, 3, 2] v hv 0
  have h2 : gridNumTriangles 1 1 = 2 := by decide
  rw [h2] at ht
  unfold triangleOfFlat triangleOfIndexed
  rw [gridIdx11]
  interval_cases t
  · show ({vertexRecord (gridFlatVertices 1 1) 0, vertexRecord (gridFlatVertices 1 1) 1,
        vertexRecord (gridFlatVertices 1 1) 2} : Multiset (List ℚ)) =
      {vertexRecord (gridVertices 1 1) 0, vertexRecord (gridVertices 1 1) 1,
        vertexRecord (gridVertices 1 1) 2}
    rw [hflatrec 0 (by omega), hflatrec 1 (by omega), hflatrec 2 (by omega),
      hrec 0 (by omega), hrec 1 (by omega), hrec 2 (by omega)]
    rfl
  · show ({vertexRecord (gridFlatVertices 1 1) 3, vertexRecord (gridFlatVertices 1 1) 4,
        vertexRecord (gridFlatVertices 1 1) 5} : Multiset (List ℚ)) =
      {vertexRecord (gridVertices 1 1) 1, vertexRecord (gridVertices 1 1) 3,
        vertexRecord (gridVertices 1 1) 2}
    rw [hflatrec 3 (by omega), hflatrec 4 (by omega), hflatrec 5 (by omega),
      hrec 1 (by omega), hrec 3 (by omega), hrec 2 (by omega)]
    rfl

/-- Witness for claim C2, at triangle 0. -/
theorem C2_witness :
    0 < gridNumTriangles 1 1 ∧
    triangleOfFlat (gridFlatVertices 1 1) 0 =
      triangleOfIndexed (gridVertices 1 1) (gridIndices 1 1) 0 :=
  ⟨by decide, C2_theorem 0 (by decide)⟩

/-- The flattened-mesh generator emits 36 numbers per grid cell. -/
theorem gridFlatVertices_length (X Y : ℕ) :
    (gridFlatVertices X Y).length = 36 * (X * Y) := by
  unfold gridFlatVertices
  have hcell : ∀ (tmp : List ℚ) (a b : ℕ),
      (pushVertex tmp (a * (Y + 1) + b) ++
       pushVertex tmp (a * (Y + 1) + b + 1) ++
       pushVertex tmp ((a + 1) * (Y + 1) + b) ++
       pushVertex tmp (a * (Y + 1) + b + 1) ++
       pushVertex tmp ((a + 1) * (Y + 1) + b + 1) ++
       pushVertex tmp ((a + 1) * (Y + 1) + b)).length = 36 := by
    intro tmp a b
    simp [pushVertex]
  have hrow : ∀ a, ((List.range Y).flatMap fun b =>
      pushVertex (gridVertices X Y) (a * (Y + 1) + b) ++
      pushVertex (gridVertices X Y) (a * (Y + 1) + b + 1) ++
      pushVertex (gridVertices X Y) ((a + 1) * (Y + 1) + b) ++
      pushVertex (gridVertices X Y) (a * (Y + 1) + b + 1) ++
      pushVertex (gridVertices X Y) ((a + 1) * (Y + 1) + b + 1) ++
      pushVertex (gridVertices X Y) ((a + 1) * (Y + 1) + b)).length = 36 * Y :=
    fun a => flatMap_range_length _ 36 (fun b => hcell (gridVertices X Y) a b) Y
  rw [flatMap_range_length _ (36 * Y) hrow X]
  ring

/-- Claim C8 (amended): in the flattened-mesh generator the number of
6-number vertex records equals 3 times (not 6 times) the reported triangle
count. -/
theorem C8_theorem (x_steps y_steps : ℕ) :
    (gridFlatVertices x_steps y_steps).length =
      6 * (3 * gridNumTriangles x_steps y_steps) ∧
    (gridFlatVertices x_steps y_steps).length / 6 =
      3 * gridNumTriangles x_steps y_steps := by
  have h1 : (gridFlatVertices x_steps y_steps).length =
      6 * (3 * gridNumTriangles x_steps y_steps) := by
    rw [gridFlatVertices_length, gridNumTriangles_eq]
    ring
  refine ⟨h1, ?_⟩
  rw [h1, Nat.mul_div_cancel_left _ (by norm_num : (0 : ℕ) < 6)]

/-- Claim C8 counterexample: for the generator as run by the source
(x_steps = y_steps = 1) the number of vertex records is 6 while 6 times the
reported triangle count is 12. -/
theorem C8_counterexample :
    ¬ ((gridFlatVertices 1 1).length / 6 = 6 * gridNumTriangles 1 1) := by
  decide

/-- Claim C6: for every frame height the triangle-fan generator builds a
buffer of numTriangles + 2 = 7 vertices: the apex (10, height - 10, 0)
colored with palette color 0 first, then the rim points at angles
-(i / numTriangles) * pi / 2 and radius 150 for i = 0 .. 5, colored with
palette color 2 for even i and palette color 1 for odd i. -/
theorem C6_theorem (height : ℝ) :
    (generateTriangleFanV height).length = numTriangles + 2 ∧
    generateTriangleFanV height =
      [mkVertex 10 (height - 10) fanColor0,
       mkVertex (10 + 150 * Real.cos (-((0 : ℝ) / 5) * Real.pi / 2))
         ((height - 10) + 150 * Real.sin (-((0 : ℝ) / 5) * Real.pi / 2)) fanColor2,
       mkVertex (10 + 150 * Real.cos (-((1 : ℝ) / 5) * Real.pi / 2))
         ((height - 10) + 150 * Real.sin (-((1 : ℝ) / 5) * Real.pi / 2)) fanColor1,
       mkVertex (10 + 150 * Real.cos (-((2 : ℝ) / 5) * Real.pi / 2))
         ((height - 10) + 150 * Real.sin (-((2 : ℝ) / 5) * Real.pi / 2)) fanColor2,
       mkVertex (10 + 150 * Real.cos (-((3 : ℝ) / 5) * Real.pi / 2))
         ((height - 10) + 150 * Real.sin (-((3 : ℝ) / 5) * Real.pi / 2)) fanColor1,
       mkVertex (10 + 150 * Real.cos (-((4 : ℝ) / 5) * Real.pi / 2))
         ((height - 10) + 150 * Real.sin (-((4 : ℝ) / 5) * Real.pi / 2)) fanColor2,
       mkVertex (10 + 150 * Real.cos (-((5 : ℝ) / 5) * Real.pi / 2))
         ((height - 10) + 150 * Real.sin (-((5 : ℝ) / 5) * Real.pi / 2)) fanColor1] := by
  constructor
  · simp [generateTriangleFanV, numTriangles]
  · unfold generateTriangleFanV
    rw [show numTriangles + 1 = 6 from rfl,
      show List.range 6 = [0, 1, 2, 3, 4, 5] from rfl]
    norm_num [numTriangles]

/-- Claim C7: for every identifier other than the strip model, getModel
returns the empty buffer; for every identifier not among the four
registered models, drawModel invokes no rasterizer fill operation and
leaves the target surface unmodified under every interpretation of the
fill operations. -/
theorem C7_theorem (model : String) (width height : ℝ) (frame : FrameBuffer)
    (drawBorder : Bool) (borderColor : Color) :
    (model ≠ "triangleStrip" → getModel model width height = []) ∧
    (model ∉ registeredModels →
      drawModelOps model frame drawBorder borderColor = [] ∧
      ∀ (S : Type) (interp : FillOp → S → S) (s : S),
        runFills interp (drawModelOps model frame drawBorder borderColor) s = s) := by
  constructor
  · intro h
    simp [getModel, h]
  · intro h
    simp only [registeredModels, List.mem_cons, List.not_mem_nil, or_false, not_or] at h
    obtain ⟨h1, h2, h3, h4⟩ := h
    have hops : drawModelOps model frame drawBorder borderColor = [] := by
      simp [drawModelOps, h1, h2, h3, h4]
    refine ⟨hops, fun S interp s => ?_⟩
    rw [hops]
    rfl

/-- Witness for claim C7, at the unregistered identifier badModel. -/
theorem C7_witness :
    (badModel ≠ "triangleStrip" ∧ badModel ∉ registeredModels) ∧
    (getModel badModel 3 4 = [] ∧
      drawModelOps badModel ⟨3, 4⟩ false ⟨0, 0, 0⟩ = [] ∧
      ∀ (S : Type) (interp : FillOp → S → S) (s : S),
        runFills interp (drawModelOps badModel ⟨3, 4⟩ false ⟨0, 0, 0⟩) s = s) := by
  have h := C7_theorem badModel 3 4 ⟨3, 4⟩ false ⟨0, 0, 0⟩
  have hne : badModel ≠ "triangleStrip" := by decide
  have hnm : badModel ∉ registeredModels := by decide
  exact ⟨⟨hne, hnm⟩, h.1 hne, (h.2 hnm).1, (h.2 hnm).2⟩

end ModelManager
